import Mathlib

/-!
Verification of the fleet-report aggregation pipeline
(`streamlit_app.py`, function `query_report_data` and its helpers).

The embedding models, faithfully to the source:
  * the batch partitioning of the vessel list (lines 150-164),
  * the accumulation/merge phase building one row per requested vessel by
    repeated pandas-style left joins on the vessel name (lines 228-299),
  * the hull-roughness classifier `get_hull_condition` (lines 308-316),
  * the ME-SFOC classifier `get_me_efficiency_and_comment` (lines 326-336)
    and the per-vessel comment assembly (lines 338-357),
  * the fuel-saving capping and rounding (lines 266-279),
  * the CII pass-through (lines 281-292) and the render-time
    missing-value substitution (line 711),
  * the final column ordering and filtering (lines 359-369).

Numeric cell values are modelled by `ℚ` (the relevant thresholds and test
points are exactly representable), missing values (`NaN` / `pd.NA`) by
`Option.none`.
-/

namespace FleetReport

/-- A cell value in the merged table: either a numeric reading or a raw
string (as for the CII rating). -/
inductive CellVal where
  | num (q : ℚ)
  | str (s : String)
deriving DecidableEq, Repr

/-- One row of the evolving merged table: the vessel name plus the cells
accumulated so far, keyed by column name.  Mirrors a row of `df_final`. -/
structure Row where
  vessel : String
  cells : List (String × Option CellVal)
deriving DecidableEq, Repr

/-- The rows of a raw accumulated result set matching a given vessel name
(the pandas join key lookup on `Vessel Name`). -/
def matchRows (v : String) (rows : List (String × Option CellVal)) :
    List (String × Option CellVal) :=
  rows.filter (fun p => p.1 == v)

/-- Pandas `pd.merge(base, right, on=VesselName, how=left)` restricted to a
single-column right table: every base row is kept; a base row with no match
receives an explicit missing value for the new column, a base row with
matches is repeated once per matching right row. -/
def leftMergeCol (base : List Row) (col : String)
    (rows : List (String × Option CellVal)) : List Row :=
  match base with
  | [] => []
  | r :: rest =>
    (match matchRows r.vessel rows with
     | [] => [{ vessel := r.vessel, cells := r.cells ++ [(col, none)] }]
     | ms => ms.map fun p => { vessel := r.vessel, cells := r.cells ++ [(col, p.2)] })
    ++ leftMergeCol rest col rows

/-- One descriptor's merge step: the source skips the merge entirely when a
descriptor accumulated no rows (`if not df_hull.empty`, lines 244-245 etc.),
so the column is only introduced when the raw list is non-empty. -/
def mergeDescriptor (base : List Row)
    (d : String × List (String × Option CellVal)) : List Row :=
  if d.2.isEmpty then base else leftMergeCol base d.1 d.2

/-- The merge phase of `query_report_data` (lines 228-299): start from a base
table holding exactly the requested vessel names (line 228) and left-join
each descriptor's accumulated rows in turn. -/
def mergeAll (vessels : List String)
    (descs : List (String × List (String × Option CellVal))) : List Row :=
  descs.foldl mergeDescriptor (vessels.map fun v => { vessel := v, cells := [] })

/-- Auxiliary for `batches10`, structurally recursive on a fuel counter so
that it evaluates by kernel reduction; with `fuel ≥ l.length` it performs
exactly the loop of lines 162-163. -/
def batchesAux {α : Type} : Nat → List α → List (List α)
  | _, [] => []
  | 0, _ :: _ => []
  | fuel + 1, a :: as => (a :: as).take 10 :: batchesAux fuel ((a :: as).drop 10)

/-- The batch partitioning of lines 162-163:
`for i in range(0, len(vessel_names), batch_size)` with
`batch_vessels = vessel_names[i:i+batch_size]` and `batch_size = 10`. -/
def batches10 {α : Type} (l : List α) : List (List α) :=
  batchesAux l.length l

/-- The classifier `get_hull_condition` (lines 308-316), verbatim:
missing → N/A; `v < 15` → Good; `15 ≤ v ≤ 25` → Average; else Poor. -/
def get_hull_condition : Option ℚ → String
  | none => "N/A"
  | some v =>
    if v < 15 then "Good"
    else if 15 ≤ v ∧ v ≤ 25 then "Average"
    else "Poor"

/-- The classifier `get_me_efficiency_and_comment` (lines 326-336), verbatim: returns the
tier label and the comment fragment.  The anomalous tier is rendered by the
source as the string literal shown below. -/
def get_me_efficiency_and_comment : Option ℚ → String × String
  | none => ("N/A", "")
  | some v =>
    if v < 160 then
      ("Anomalous data", "SFOC value is unusually low, indicating potential data anomaly.")
    else if v < 180 then ("Good", "")
    else if 180 ≤ v ∧ v ≤ 190 then ("Average", "")
    else ("Poor", "")

/-- Python `s.split(' ')` on a character list: split at every single space,
keeping empty fragments between consecutive separators. -/
def splitOnSpace : List Char → List (List Char)
  | [] => [[]]
  | ' ' :: rest => [] :: splitOnSpace rest
  | c :: rest =>
    match splitOnSpace rest with
    | [] => [[c]]
    | t :: ts => (c :: t) :: ts

/-- Python `col_name.split(' ')` as used on line 350. -/
def pySplitSpace (s : String) : List String :=
  (splitOnSpace s.data).map fun l => { data := l }

/-- Python `repr` of a string (single quotes), for quote-free inputs. -/
def pyStrRepr (s : String) : String := "\x27" ++ s ++ "\x27"

/-- Python `str` of a list of strings, as produced when a list is
interpolated into an f-string: `['Jul', '25']`. -/
def pyListRepr (l : List String) : String :=
  "[" ++ String.intercalate ", " (l.map pyStrRepr) ++ "]"

/-- Python `lst[-2:]`: the last two elements. -/
def lastTwo (l : List String) : List String := l.drop (l.length - 2)

/-- The Python space-join of a list of strings (line 356). -/
def joinWithSpace : List String → String
  | [] => ""
  | [s] => s
  | s :: rest => s ++ " " ++ joinWithSpace rest

/-- Python `s.strip()`: drop leading and trailing whitespace. -/
def pyStrip (s : String) : String :=
  { data := ((s.data.dropWhile Char.isWhitespace).reverse.dropWhile
      Char.isWhitespace).reverse }

/-- The comment entry appended for one monthly ME column (line 350):
`f"ME Efficiency ({me_info['col_name'].split(' ')[-2:]}): {comment}"`,
appended only when the comment fragment is non-empty.  Note the source
interpolates the *list* of the column name's last two tokens, and the
comment fragment carries no numeric value. -/
def meCommentEntry (colName : String) (v : Option ℚ) : Option String :=
  let p := get_me_efficiency_and_comment v
  if p.2 = "" then none
  else some ("ME Efficiency (" ++ pyListRepr (lastTwo (pySplitSpace colName)) ++ "): " ++ p.2)

/-- The final `Comments` cell for one vessel (lines 339-356): the space-join
of the per-month comment entries, stripped. -/
def vesselComments (cols : List String) (vals : List (Option ℚ)) : String :=
  pyStrip (joinWithSpace ((cols.zip vals).filterMap fun cv => meCommentEntry cv.1 cv.2))

/-- The fuel-saving cap of line 272:
`4.9 if x > 5 else (0.0 if x < 0 else x)` for non-missing `x`. -/
def capFuel (v : ℚ) : ℚ :=
  if v > 5 then 4.9 else if v < 0 then 0.0 else v

/-- Round-half-to-even to an integer, the rounding used by
`pandas.Series.round` (numpy). -/
def roundHalfEven (q : ℚ) : ℤ :=
  if Int.fract q < 1/2 then ⌊q⌋
  else if 1/2 < Int.fract q then ⌊q⌋ + 1
  else if ⌊q⌋ % 2 = 0 then ⌊q⌋ else ⌊q⌋ + 1

/-- Round-half-to-even to `d` decimal places. -/
def roundToDecimals (d : Nat) (q : ℚ) : ℚ :=
  (roundHalfEven (q * 10 ^ d) : ℚ) / 10 ^ d

/-- The published `Potential Fuel Saving (MT/Day)` value (lines 271-273):
cap, then `.round(2)`; a missing value stays missing. -/
def fuelSavingPublished (x : Option ℚ) : Option ℚ :=
  x.map fun v => roundToDecimals 2 (capFuel v)

/-- Modelled from the spec's words, for comparison only: the spec states the
cap is "Rounded to one decimal for presentation". -/
def fuelSavingOneDecimalSpec (x : Option ℚ) : Option ℚ :=
  x.map fun v => roundToDecimals 1 (capFuel v)

/-- Render-time cell text (lines 711 and 999):
`str(value) if pd.notna(value) else "N/A"`. -/
def renderCellText : Option CellVal → String
  | none => "N/A"
  | some (CellVal.str s) => s
  | some (CellVal.num q) => toString q

/-- Column name constants and constructors of `query_report_data`. -/
def fuelCol : String := "Potential Fuel Saving (MT/Day)"

/-- The `YTD CII` column name. -/
def ciiCol : String := "YTD CII"

/-- Column name `f"Hull Condition {month}"` (line 132). -/
def hullTierColName (m : String) : String := "Hull Condition " ++ m

/-- Column name `f"Hull Roughness Power Loss % {month}"` (line 133). -/
def hullRawColName (m : String) : String := "Hull Roughness Power Loss % " ++ m

/-- Column name `f"ME Efficiency {month}"` (line 142). -/
def meColName (m : String) : String := "ME Efficiency " ++ m

/-- The list `desired_columns_order` (lines 360-365). -/
def desiredColumnsOrder (hullMonths meMonths : List String) : List String :=
  ["S. No.", "Vessel Name"] ++ hullMonths.map hullTierColName
    ++ meMonths.map meColName ++ [fuelCol, ciiCol, "Comments"]

/-- The columns present in `df_final` when the final filter of line 368
runs, as a function of which descriptors accumulated data this run:

* `S. No.` (line 305), `Vessel Name` (line 228) and `Comments` (line 356)
  always exist;
* a hull raw power-loss column exists iff its descriptor returned rows
  (lines 233-245);
* every hull condition tier column exists — lines 319-323 create it
  unconditionally, filling it with `"N/A"` when the raw column is absent;
* an ME tier column exists iff its descriptor returned rows (lines
  248-262; lines 342-353 only transform it in place when present);
* the fuel-saving and CII columns exist iff their descriptors returned
  rows (lines 264-299). -/
def dfColumns (hullMonths meMonths : List String) (hullHas meHas : String → Bool)
    (fuelHas ciiHas : Bool) : List String :=
  ["S. No.", "Vessel Name"] ++ (hullMonths.filter hullHas).map hullRawColName
    ++ (meMonths.filter meHas).map meColName
    ++ (if fuelHas then [fuelCol] else []) ++ (if ciiHas then [ciiCol] else [])
    ++ hullMonths.map hullTierColName ++ ["Comments"]

/-- The final report columns (lines 367-369):
`[col for col in desired_columns_order if col in df_final.columns]`. -/
def finalColumns (hullMonths meMonths : List String) (hullHas meHas : String → Bool)
    (fuelHas ciiHas : Bool) : List String :=
  (desiredColumnsOrder hullMonths meMonths).filter
    fun c => decide (c ∈ dfColumns hullMonths meMonths hullHas meHas fuelHas ciiHas)

/-- The value of a hull condition tier cell (lines 319-323): the classifier
applied to the raw reading when the raw column exists, the constant `"N/A"`
otherwise. -/
def hullTierCellValue (hasRawCol : Bool) (raw : Option ℚ) : String :=
  if hasRawCol then get_hull_condition raw else "N/A"

/-- Substring test at the character-list level (needle, hay). -/
def startsWithL : List Char → List Char → Bool
  | [], _ => true
  | _ :: _, [] => false
  | a :: as, b :: bs => a == b && startsWithL as bs

/-- Whether `needle` occurs as a contiguous substring of the hay. -/
def containsSubL (needle : List Char) : List Char → Bool
  | [] => needle.isEmpty
  | c :: rest => startsWithL needle (c :: rest) || containsSubL needle rest

/-- Whether the string `needle` occurs inside `hay`. -/
def strContains (hay needle : String) : Bool := containsSubL needle.data hay.data

/-! ### Batching lemmas -/

lemma batchesAux_join {α : Type} :
    ∀ (fuel : Nat) (l : List α), l.length ≤ fuel → (batchesAux fuel l).flatten = l := by
  intro fuel
  induction fuel with
  | zero =>
    intro l hl
    cases l with
    | nil => rfl
    | cons a as => simp at hl
  | succ f ih =>
    intro l hl
    cases l with
    | nil => rfl
    | cons a as =>
      simp only [batchesAux, List.flatten]
      rw [ih ((a :: as).drop 10) (by simp at hl ⊢; omega)]
      exact List.take_append_drop 10 (a :: as)

lemma batchesAux_count {α : Type} :
    ∀ (fuel : Nat) (l : List α), l.length ≤ fuel →
      (batchesAux fuel l).length = (l.length + 9) / 10 := by
  intro fuel
  induction fuel with
  | zero =>
    intro l hl
    cases l with
    | nil => simp [batchesAux]
    | cons a as => simp at hl
  | succ f ih =>
    intro l hl
    cases l with
    | nil => simp [batchesAux]
    | cons a as =>
      simp only [batchesAux, List.length_cons]
      rw [ih ((a :: as).drop 10) (by simp at hl ⊢; omega)]
      simp only [List.length_drop, List.length_cons]
      omega

lemma batchesAux_mem {α : Type} :
    ∀ (fuel : Nat) (l : List α) (b : List α), b ∈ batchesAux fuel l →
      b.length ≤ 10 ∧ b ≠ [] := by
  intro fuel
  induction fuel with
  | zero =>
    intro l b hb
    cases l with
    | nil => simp [batchesAux] at hb
    | cons a as => simp [batchesAux] at hb
  | succ f ih =>
    intro l b hb
    cases l with
    | nil => simp [batchesAux] at hb
    | cons a as =>
      simp only [batchesAux, List.mem_cons] at hb
      rcases hb with hb | hb
      · subst hb
        constructor
        · exact List.length_take_le 10 (a :: as)
        · simp
      · exact ih _ _ hb

/-! ### Claim theorems -/

/-- C2: for every non-empty vessel list processed with the fixed batch size
10, `query_report_data` partitions the list into contiguous batches of at
most 10 vessels, covering every vessel exactly once; the batch count equals
the source's `(len(vessel_names) + batch_size - 1) // batch_size`, i.e.
`ceil(|V| / 10)`; and a list of 23 vessels yields batches of sizes
10, 10 and 3. -/
theorem claim_C2 (vs : List String) (_hne : vs ≠ []) :
    (batches10 vs).flatten = vs ∧
    (∀ b ∈ batches10 vs, b.length ≤ 10 ∧ b ≠ []) ∧
    (batches10 vs).length = (vs.length + 10 - 1) / 10 ∧
    (batches10 (List.replicate 23 "V")).map List.length = [10, 10, 3] := by
  refine ⟨batchesAux_join vs.length vs le_rfl,
          fun b hb => batchesAux_mem vs.length vs b hb, ?_, by decide⟩
  have hc := batchesAux_count vs.length vs le_rfl
  show (batchesAux vs.length vs).length = (vs.length + 10 - 1) / 10
  rw [hc]
  norm_num

/-- Witness for C2 at the concrete vessel list `["A"]`. -/
theorem claim_C2_witness :
    (["A"] : List String) ≠ [] ∧
      ((batches10 ["A"]).flatten = ["A"] ∧
       (∀ b ∈ batches10 ["A"], b.length ≤ 10 ∧ b ≠ []) ∧
       (batches10 ["A"]).length = ((["A"] : List String).length + 10 - 1) / 10 ∧
       (batches10 (List.replicate 23 "V")).map List.length = [10, 10, 3]) :=
  ⟨by decide, claim_C2 ["A"] (by decide)⟩

/-- C3: the hull classifier returns Good for `v < 15`, Average for
`15 ≤ v ≤ 25`, Poor for `v > 25` and N/A for a missing value; the boundary
values 15 and 25 classify as Average and 25.0001 as Poor. -/
theorem claim_C3 (v : ℚ) :
    (v < 15 → get_hull_condition (some v) = "Good") ∧
    (15 ≤ v → v ≤ 25 → get_hull_condition (some v) = "Average") ∧
    (25 < v → get_hull_condition (some v) = "Poor") ∧
    get_hull_condition none = "N/A" ∧
    get_hull_condition (some 15) = "Average" ∧
    get_hull_condition (some 25) = "Average" ∧
    get_hull_condition (some 25.0001) = "Poor" := by
  refine ⟨?_, ?_, ?_, rfl, ?_, ?_, ?_⟩
  · intro h
    simp [get_hull_condition, if_pos h]
  · intro h1 h2
    simp only [get_hull_condition]
    rw [if_neg (by linarith), if_pos ⟨h1, h2⟩]
  · intro h
    simp only [get_hull_condition]
    rw [if_neg (by linarith), if_neg (by intro hc; linarith [hc.2])]
  · norm_num [get_hull_condition]
  · norm_num [get_hull_condition]
  · norm_num [get_hull_condition]

/-- Witness for C3 at `v = 10`. -/
theorem claim_C3_witness :
    (10 : ℚ) < 15 ∧ get_hull_condition (some 10) = "Good" :=
  ⟨by norm_num, (claim_C3 10).1 (by norm_num)⟩

/-- C4: the ME classifier returns the anomalous tier (rendered by the source
as the string `"Anomalous data"`) for `v < 160`, Good for `160 ≤ v < 180`,
Average for `180 ≤ v ≤ 190`, Poor for `v > 190`, and N/A with an empty
comment for a missing value; the boundary values behave as claimed. -/
theorem claim_C4 (v : ℚ) :
    (v < 160 → (get_me_efficiency_and_comment (some v)).1 = "Anomalous data") ∧
    (160 ≤ v → v < 180 → (get_me_efficiency_and_comment (some v)).1 = "Good") ∧
    (180 ≤ v → v ≤ 190 → (get_me_efficiency_and_comment (some v)).1 = "Average") ∧
    (190 < v → (get_me_efficiency_and_comment (some v)).1 = "Poor") ∧
    get_me_efficiency_and_comment none = ("N/A", "") ∧
    (get_me_efficiency_and_comment (some 160)).1 = "Good" ∧
    (get_me_efficiency_and_comment (some 159.999)).1 = "Anomalous data" ∧
    (get_me_efficiency_and_comment (some 180)).1 = "Average" ∧
    (get_me_efficiency_and_comment (some 190)).1 = "Average" ∧
    (get_me_efficiency_and_comment (some 190.001)).1 = "Poor" := by
  refine ⟨?_, ?_, ?_, ?_, rfl, ?_, ?_, ?_, ?_, ?_⟩
  · intro h
    simp [get_me_efficiency_and_comment, if_pos h]
  · intro h1 h2
    simp only [get_me_efficiency_and_comment]
    rw [if_neg (by linarith), if_pos h2]
  · intro h1 h2
    simp only [get_me_efficiency_and_comment]
    rw [if_neg (by linarith), if_neg (by linarith), if_pos ⟨h1, h2⟩]
  · intro h
    simp only [get_me_efficiency_and_comment]
    rw [if_neg (by linarith), if_neg (by linarith),
        if_neg (by intro hc; linarith [hc.2])]
  · norm_num [get_me_efficiency_and_comment]
  · norm_num [get_me_efficiency_and_comment]
  · norm_num [get_me_efficiency_and_comment]
  · norm_num [get_me_efficiency_and_comment]
  · norm_num [get_me_efficiency_and_comment]

/-- Witness for C4 at `v = 150`. -/
theorem claim_C4_witness :
    (150 : ℚ) < 160 ∧ (get_me_efficiency_and_comment (some 150)).1 = "Anomalous data" :=
  ⟨by norm_num, (claim_C4 150).1 (by norm_num)⟩

/-- C10: the fuel-saving cap of line 272 is idempotent. -/
theorem claim_C10 (v : ℚ) : capFuel (capFuel v) = capFuel v := by
  unfold capFuel
  split_ifs <;> first | rfl | linarith

/-! ### Merge lemmas -/

lemma matchRows_length_le (rows : List (String × Option CellVal))
    (h : (rows.map Prod.fst).Nodup) (v : String) :
    (matchRows v rows).length ≤ 1 := by
  induction rows with
  | nil => simp [matchRows]
  | cons p ps ih =>
    simp only [List.map_cons, List.nodup_cons] at h
    by_cases hpv : p.1 == v
    · have hv : p.1 = v := eq_of_beq hpv
      have hnil : ps.filter (fun q => q.1 == v) = [] := by
        rw [List.filter_eq_nil_iff]
        intro q hq
        simp only [beq_iff_eq]
        intro hqv
        apply h.1
        rw [hv, ← hqv]
        exact List.mem_map_of_mem Prod.fst hq
      have hmatch : matchRows v (p :: ps) = [p] := by
        simp only [matchRows, List.filter_cons, hpv, if_true]
        rw [hnil]
      simp [hmatch]
    · simp only [matchRows, List.filter_cons, hpv, if_false]
      exact ih h.2

lemma leftMergeCol_map_vessel (base : List Row) (col : String)
    (rows : List (String × Option CellVal))
    (h : (rows.map Prod.fst).Nodup) :
    (leftMergeCol base col rows).map Row.vessel = base.map Row.vessel := by
  induction base with
  | nil => rfl
  | cons r rest ih =>
    simp only [leftMergeCol, List.map_append, ih, List.map_cons]
    rcases hm : matchRows r.vessel rows with _ | ⟨p, ps⟩
    · simp
    · have hlen := matchRows_length_le rows h r.vessel
      rw [hm] at hlen
      simp only [List.length_cons] at hlen
      have hps : ps = [] := List.length_eq_zero.mp (by omega)
      subst hps
      simp

lemma mergeDescriptor_map_vessel (base : List Row)
    (d : String × List (String × Option CellVal))
    (h : (d.2.map Prod.fst).Nodup) :
    (mergeDescriptor base d).map Row.vessel = base.map Row.vessel := by
  unfold mergeDescriptor
  split
  · rfl
  · exact leftMergeCol_map_vessel base d.1 d.2 h

lemma foldl_mergeDescriptor_map_vessel
    (descs : List (String × List (String × Option CellVal))) :
    ∀ base : List Row, (∀ d ∈ descs, (d.2.map Prod.fst).Nodup) →
      (descs.foldl mergeDescriptor base).map Row.vessel = base.map Row.vessel := by
  induction descs with
  | nil => intro base _; rfl
  | cons d ds ih =>
    intro base h
    simp only [List.foldl_cons]
    rw [ih (mergeDescriptor base d) fun d hd => h d (List.mem_cons_of_mem _ hd)]
    exact mergeDescriptor_map_vessel base d (h d (List.mem_cons_self d ds))

lemma mergeAll_map_vessel (vessels : List String)
    (descs : List (String × List (String × Option CellVal)))
    (h : ∀ d ∈ descs, (d.2.map Prod.fst).Nodup) :
    (mergeAll vessels descs).map Row.vessel = vessels := by
  unfold mergeAll
  rw [foldl_mergeDescriptor_map_vessel descs _ h]
  simp [List.map_map, Function.comp_def]

lemma mergeDescriptor_absent_vessel (base : List Row) (col : String)
    (rows : List (String × Option CellVal)) (r : Row)
    (hr : r ∈ base) (hrows : rows ≠ [])
    (habs : r.vessel ∉ rows.map Prod.fst) :
    ({ vessel := r.vessel, cells := r.cells ++ [(col, none)] } : Row) ∈
      mergeDescriptor base (col, rows) := by
  unfold mergeDescriptor
  rw [if_neg (by simpa using hrows)]
  have hmatch : matchRows r.vessel rows = [] := by
    rw [matchRows, List.filter_eq_nil_iff]
    intro q hq
    simp only [beq_iff_eq]
    intro hqv
    exact habs (hqv ▸ List.mem_map_of_mem Prod.fst hq)
  induction base with
  | nil => simp at hr
  | cons b rest ih =>
    simp only [leftMergeCol, List.mem_append]
    rcases List.mem_cons.mp hr with hb | hb
    · subst hb
      rw [hmatch]
      exact Or.inl (List.mem_singleton_self _)
    · exact Or.inr (ih hb)

/-- C1 (amended): provided each descriptor's accumulated raw rows contain at
most one row per vessel name, the merged table built by `query_report_data`
contains exactly one row per requested vessel — its vessel column equals the
requested list, so the row count matches and every requested vessel appears;
and a vessel absent from a non-empty descriptor's results receives an
explicit missing value in that descriptor's column instead of losing its
row.  (Without the at-most-one-row condition the pandas left merge
duplicates rows; see the counterexample.) -/
theorem claim_C1_amended (vessels : List String)
    (descs : List (String × List (String × Option CellVal)))
    (h : ∀ d ∈ descs, (d.2.map Prod.fst).Nodup) :
    ((mergeAll vessels descs).map Row.vessel = vessels ∧
     (mergeAll vessels descs).length = vessels.length) ∧
    (∀ (base : List Row) (col : String) (rows : List (String × Option CellVal))
       (r : Row), r ∈ base → rows ≠ [] → r.vessel ∉ rows.map Prod.fst →
       ({ vessel := r.vessel, cells := r.cells ++ [(col, none)] } : Row) ∈
         mergeDescriptor base (col, rows)) := by
  refine ⟨⟨mergeAll_map_vessel vessels descs h, ?_⟩, ?_⟩
  · have := congrArg List.length (mergeAll_map_vessel vessels descs h)
    simpa using this
  · intro base col rows r hr hrows habs
    exact mergeDescriptor_absent_vessel base col rows r hr hrows habs

/-- Witness for C1 (amended) at a concrete run: two vessels, one descriptor
with data only for the first. -/
theorem claim_C1_amended_witness :
    (∀ d ∈ [("c", [("A", some (CellVal.num 1))])],
        ((d.2.map Prod.fst : List String)).Nodup) ∧
    (mergeAll ["A", "B"] [("c", [("A", some (CellVal.num 1))])]).map Row.vessel
      = ["A", "B"] :=
  ⟨by decide,
   ((claim_C1_amended ["A", "B"] [("c", [("A", some (CellVal.num 1))])]
      (by decide)).1).1⟩

/-- C1 counterexample: the claim as stated quantifies over every collection
of accumulated raw rows, but when one descriptor returns two rows for the
same vessel the pandas left merge duplicates that vessel's row, so the
merged table has 2 rows for a 1-vessel request. -/
theorem claim_C1_counterexample :
    (mergeAll ["A"] [("c", [("A", some (CellVal.num 1)), ("A", some (CellVal.num 2))])]).length
        = 2 ∧
    (["A"] : List String).length = 1 := by
  decide

/-- C9 (amended): when the base merge table contains the same vessel name
twice, the pipeline does not raise: the merge phase is total and silently
continues, producing one row per occurrence of the duplicated name (and with
all-distinct names each vessel appears exactly once, making any would-be
error branch unreachable — no such branch exists in the code). -/
theorem claim_C9_amended (v : String) (vs : List String)
    (descs : List (String × List (String × Option CellVal)))
    (h : ∀ d ∈ descs, (d.2.map Prod.fst).Nodup) :
    (mergeAll (v :: v :: vs) descs).map Row.vessel = v :: v :: vs :=
  mergeAll_map_vessel (v :: v :: vs) descs h

/-- Witness for C9 (amended) at a concrete duplicated vessel list. -/
theorem claim_C9_amended_witness :
    (∀ d ∈ [("c", [("A", some (CellVal.num 1))])],
        ((d.2.map Prod.fst : List String)).Nodup) ∧
    (mergeAll ["A", "A"] [("c", [("A", some (CellVal.num 1))])]).map Row.vessel
      = ["A", "A"] :=
  ⟨by decide, claim_C9_amended "A" [] [("c", [("A", some (CellVal.num 1))])] (by decide)⟩

/-- C9 counterexample: with the vessel name `"A"` duplicated in the base
merge table, the pipeline does not raise any error — it produces an ordinary
two-row report table. -/
theorem claim_C9_counterexample :
    mergeAll ["A", "A"] [("c", [("A", some (CellVal.num 1))])] =
      [{ vessel := "A", cells := [("c", some (CellVal.num 1))] },
       { vessel := "A", cells := [("c", some (CellVal.num 1))] }] ∧
    mergeAll ["A", "A"] [("c", [("A", some (CellVal.num 1))])] ≠ [] := by
  decide

/-! ### Comments (C5) -/

/-- C5 (amended): the ME anomaly comment does not interpolate the numeric
SFOC value — for every value below 160 the emitted Comments text is the same
fixed string — and the month appears as the Python list repr of the column
label's last two tokens; concretely, for SFOC 150 the Comments field reads
`ME Efficiency (['Jul', '25']): SFOC value is unusually low, indicating
potential data anomaly.`, which contains "unusually low" but not "150.0". -/
theorem claim_C5_amended (col : String) (v : ℚ) (h : v < 160) :
    vesselComments [col] [some v] = vesselComments [col] [some 0] ∧
    vesselComments ["ME Efficiency Jul 25"] [some 150] =
      "ME Efficiency ([\x27Jul\x27, \x2725\x27]): SFOC value is unusually low, indicating potential data anomaly." ∧
    strContains (vesselComments ["ME Efficiency Jul 25"] [some 150]) "unusually low" = true ∧
    strContains (vesselComments ["ME Efficiency Jul 25"] [some 150]) "150.0" = false := by
  refine ⟨?_, by decide, by decide, by decide⟩
  have hv : get_me_efficiency_and_comment (some v) = ("Anomalous data",
      "SFOC value is unusually low, indicating potential data anomaly.") := by
    simp [get_me_efficiency_and_comment, if_pos h]
  have h0 : get_me_efficiency_and_comment (some 0) = ("Anomalous data",
      "SFOC value is unusually low, indicating potential data anomaly.") := by
    norm_num [get_me_efficiency_and_comment]
  simp [vesselComments, meCommentEntry, hv, h0]

/-- Witness for C5 (amended) at `v = 150`. -/
theorem claim_C5_amended_witness :
    (150 : ℚ) < 160 ∧
      (vesselComments ["ME Efficiency Jul 25"] [some 150] =
          vesselComments ["ME Efficiency Jul 25"] [some 0] ∧
       vesselComments ["ME Efficiency Jul 25"] [some 150] =
         "ME Efficiency ([\x27Jul\x27, \x2725\x27]): SFOC value is unusually low, indicating potential data anomaly." ∧
       strContains (vesselComments ["ME Efficiency Jul 25"] [some 150]) "unusually low" = true ∧
       strContains (vesselComments ["ME Efficiency Jul 25"] [some 150]) "150.0" = false) :=
  ⟨by norm_num, claim_C5_amended "ME Efficiency Jul 25" 150 (by norm_num)⟩

/-- C5 counterexample: the claim requires the numeric value to be
interpolated into the comment ("contains the substring 150.0"), but for an
SFOC of 150 the source emits a fixed text without the value: the Comments
field contains "unusually low" yet does not contain "150.0" (nor even
"150"). -/
theorem claim_C5_counterexample :
    strContains (vesselComments ["ME Efficiency Jul 25"] [some 150]) "unusually low" = true ∧
    strContains (vesselComments ["ME Efficiency Jul 25"] [some 150]) "150.0" = false ∧
    strContains (vesselComments ["ME Efficiency Jul 25"] [some 150]) "150" = false := by
  decide

/-! ### CII pass-through (C6) -/

/-- C6 (amended): the raw CII rating string is placed in the report's
`YTD CII` column unmodified — no case normalization happens anywhere in the
pipeline — and a missing rating is rendered as `N/A` at document-render
time; in particular the raw value "a" appears in the report as "a", not "A". -/
theorem claim_C6_amended (v r : String) :
    mergeAll [v] [(ciiCol, [(v, some (CellVal.str r))])] =
      [{ vessel := v, cells := [(ciiCol, some (CellVal.str r))] }] ∧
    renderCellText (some (CellVal.str r)) = r ∧
    renderCellText none = "N/A" := by
  refine ⟨?_, rfl, rfl⟩
  simp [mergeAll, mergeDescriptor, leftMergeCol, matchRows, List.filter_cons]

/-- C6 counterexample: with raw CII rating "a" the pipeline stores "a" in
the `YTD CII` column and the report renders "a", not the upper-cased "A"
that the claim requires. -/
theorem claim_C6_counterexample :
    mergeAll ["V"] [(ciiCol, [("V", some (CellVal.str "a"))])] =
      [{ vessel := "V", cells := [(ciiCol, some (CellVal.str "a"))] }] ∧
    renderCellText (some (CellVal.str "a")) = "a" ∧
    ("a" : String) ≠ "A" := by
  refine ⟨by decide, rfl, by decide⟩

/-! ### Fuel saving (C7) -/

/-- C7 (amended): the published Potential Fuel Saving value is the cap of
the raw value (4.9 if above 5, 0.0 if below 0, otherwise unchanged; missing
stays missing) rounded to **two** decimal places (`.round(2)`, line 273), not
one; the claim's examples hold: 7.2 → 4.9, -3 → 0.0, 3.2 → 3.2. -/
lemma roundHalfEven_intCast (n : ℤ) : roundHalfEven ((n : ℚ)) = n := by
  unfold roundHalfEven
  rw [Int.fract_intCast, Int.floor_intCast]
  norm_num

lemma roundToDecimals_eq_self (d : Nat) (q : ℚ) (n : ℤ)
    (h : q * 10 ^ d = (n : ℚ)) : roundToDecimals d q = q := by
  have h10 : ((10 : ℚ)) ^ d ≠ 0 := by positivity
  rw [roundToDecimals, h, roundHalfEven_intCast, ← h,
    mul_div_cancel_right₀ q h10]

/-- C7 (amended): the published Potential Fuel Saving value is the cap of
the raw value (4.9 if above 5, 0.0 if below 0, otherwise unchanged; missing
stays missing) rounded to **two** decimal places (`.round(2)`, line 273), not
one; the claim's examples hold: 7.2 → 4.9, -3 → 0.0, 3.2 → 3.2. -/
theorem claim_C7_amended (v : ℚ) :
    (5 < v → fuelSavingPublished (some v) = some (49/10)) ∧
    (v < 0 → fuelSavingPublished (some v) = some 0) ∧
    (0 ≤ v → v ≤ 5 → fuelSavingPublished (some v) = some (roundToDecimals 2 v)) ∧
    fuelSavingPublished none = none ∧
    fuelSavingPublished (some (36/5)) = some (49/10) ∧
    fuelSavingPublished (some (-3)) = some 0 ∧
    fuelSavingPublished (some (16/5)) = some (16/5) := by
  have h49 : roundToDecimals 2 (49/10 : ℚ) = 49/10 :=
    roundToDecimals_eq_self 2 _ 490 (by norm_num)
  have h0 : roundToDecimals 2 (0 : ℚ) = 0 :=
    roundToDecimals_eq_self 2 _ 0 (by norm_num)
  have h32 : roundToDecimals 2 (16/5 : ℚ) = 16/5 :=
    roundToDecimals_eq_self 2 _ 320 (by norm_num)
  refine ⟨?_, ?_, ?_, rfl, ?_, ?_, ?_⟩
  · intro h
    show some (roundToDecimals 2 (capFuel v)) = some (49/10)
    unfold capFuel
    rw [if_pos h, show (4.9 : ℚ) = 49/10 by norm_num, h49]
  · intro h
    show some (roundToDecimals 2 (capFuel v)) = some 0
    unfold capFuel
    rw [if_neg (by linarith), if_pos h, show (0.0 : ℚ) = 0 by norm_num, h0]
  · intro h1 h2
    show some (roundToDecimals 2 (capFuel v)) = some (roundToDecimals 2 v)
    unfold capFuel
    rw [if_neg (by linarith), if_neg (by linarith)]
  · show some (roundToDecimals 2 (capFuel (36/5))) = some (49/10)
    unfold capFuel
    rw [if_pos (by norm_num), show (4.9 : ℚ) = 49/10 by norm_num, h49]
  · show some (roundToDecimals 2 (capFuel (-3))) = some 0
    unfold capFuel
    rw [if_neg (by norm_num), if_pos (by norm_num), show (0.0 : ℚ) = 0 by norm_num, h0]
  · show some (roundToDecimals 2 (capFuel (16/5))) = some (16/5)
    unfold capFuel
    rw [if_neg (by norm_num), if_neg (by norm_num), h32]

/-- Witness for C7 (amended) at `v = 36/5` (i.e. 7.2). -/
theorem claim_C7_amended_witness :
    (5 : ℚ) < 36/5 ∧ fuelSavingPublished (some (36/5)) = some (49/10) :=
  ⟨by norm_num, (claim_C7_amended (36/5)).1 (by norm_num)⟩

/-- C7 counterexample: the claim says the published value is the cap rounded
to **one** decimal place, but the source rounds to two (`.round(2)`): for the
exactly-representable raw value 3.25 the code publishes 3.25 while a
one-decimal rounding (half-to-even, as numpy rounds) gives 3.2. -/
theorem claim_C7_counterexample :
    fuelSavingPublished (some (13/4)) = some (13/4) ∧
    fuelSavingOneDecimalSpec (some (13/4)) = some (16/5) ∧
    (13/4 : ℚ) ≠ 16/5 := by
  have hcap : capFuel (13/4 : ℚ) = 13/4 := by
    unfold capFuel
    rw [if_neg (by norm_num), if_neg (by norm_num)]
  refine ⟨?_, ?_, by norm_num⟩
  · show some (roundToDecimals 2 (capFuel (13/4))) = some (13/4)
    rw [hcap, roundToDecimals_eq_self 2 _ 325 (by norm_num)]
  · show some (roundToDecimals 1 (capFuel (13/4))) = some (16/5)
    rw [hcap]
    have h325 : ((13 : ℚ)/4) * 10 ^ (1 : ℕ) = 65/2 := by norm_num
    have hfl : ⌊(65/2 : ℚ)⌋ = 32 := Int.floor_eq_iff.mpr (by norm_num)
    have hfr : Int.fract (65/2 : ℚ) = 1/2 := by
      unfold Int.fract
      rw [hfl]
      norm_num
    rw [roundToDecimals]
    unfold roundHalfEven
    rw [h325, hfr, hfl]
    norm_num

/-! ### Column assembly (C8) -/

lemma ne_of_head {s t : String} (h : s.data.head? ≠ t.data.head?) : s ≠ t :=
  fun e => h (by rw [e])

lemma ne_of_take6 {s t : String} (h : s.data.take 6 ≠ t.data.take 6) : s ≠ t :=
  fun e => h (by rw [e])

lemma head_meColName (m : String) : (meColName m).data.head? = some 'M' := by
  simp [meColName, String.data_append]

lemma head_hullTierColName (m : String) :
    (hullTierColName m).data.head? = some 'H' := by
  simp [hullTierColName, String.data_append]

lemma head_hullRawColName (m : String) :
    (hullRawColName m).data.head? = some 'H' := by
  simp [hullRawColName, String.data_append]

lemma take6_hullTierColName (m : String) :
    (hullTierColName m).data.take 6 = "Hull C".data := by
  simp [hullTierColName, String.data_append]

lemma take6_hullRawColName (m : String) :
    (hullRawColName m).data.take 6 = "Hull R".data := by
  simp [hullRawColName, String.data_append]

lemma meColName_injEq {m n : String} (h : meColName m = meColName n) : m = n := by
  have hd : "ME Efficiency ".data ++ m.data = "ME Efficiency ".data ++ n.data := by
    have := congrArg String.data h
    simpa [meColName, String.data_append] using this
  have hmn : m.data = n.data := List.append_cancel_left hd
  cases m
  cases n
  exact congrArg String.mk hmn

lemma hullTierColName_injEq {m n : String}
    (h : hullTierColName m = hullTierColName n) : m = n := by
  have hd : "Hull Condition ".data ++ m.data = "Hull Condition ".data ++ n.data := by
    have := congrArg String.data h
    simpa [hullTierColName, String.data_append] using this
  have hmn : m.data = n.data := List.append_cancel_left hd
  cases m
  cases n
  exact congrArg String.mk hmn

lemma meColName_ne_hullTier (m n : String) : meColName m ≠ hullTierColName n :=
  ne_of_head (by rw [head_meColName, head_hullTierColName]; decide)

lemma meColName_ne_hullRaw (m n : String) : meColName m ≠ hullRawColName n :=
  ne_of_head (by rw [head_meColName, head_hullRawColName]; decide)

lemma hullTier_ne_hullRaw (m n : String) : hullTierColName m ≠ hullRawColName n :=
  ne_of_take6 (by rw [take6_hullTierColName, take6_hullRawColName]; decide)

lemma meColName_ne_lit (m : String) {t : String}
    (h : t.data.head? ≠ some 'M') : meColName m ≠ t :=
  ne_of_head (by rw [head_meColName]; exact fun e => h (e ▸ rfl))

lemma hullTierColName_ne_lit (m : String) {t : String}
    (h : t.data.head? ≠ some 'H') : hullTierColName m ≠ t :=
  ne_of_head (by rw [head_hullTierColName]; exact fun e => h (e ▸ rfl))

lemma hullRawColName_ne_lit (m : String) {t : String}
    (h : t.data.head? ≠ some 'H') : hullRawColName m ≠ t :=
  ne_of_head (by rw [head_hullRawColName]; exact fun e => h (e ▸ rfl))

lemma mem_dfColumns_iff (c : String) (hullMonths meMonths : List String)
    (hullHas meHas : String → Bool) (fuelHas ciiHas : Bool) :
    c ∈ dfColumns hullMonths meMonths hullHas meHas fuelHas ciiHas ↔
      (c = "S. No." ∨ c = "Vessel Name" ∨
       (∃ m, (m ∈ hullMonths ∧ hullHas m = true) ∧ hullRawColName m = c) ∨
       (∃ m, (m ∈ meMonths ∧ meHas m = true) ∧ meColName m = c) ∨
       (fuelHas = true ∧ c = fuelCol) ∨ (ciiHas = true ∧ c = ciiCol) ∨
       (∃ m, m ∈ hullMonths ∧ hullTierColName m = c) ∨ c = "Comments") := by
  unfold dfColumns
  cases fuelHas <;> cases ciiHas <;>
    simp [List.mem_append, List.mem_map, List.mem_filter]

lemma mem_desiredColumnsOrder_iff (c : String) (hullMonths meMonths : List String) :
    c ∈ desiredColumnsOrder hullMonths meMonths ↔
      (c = "S. No." ∨ c = "Vessel Name" ∨
       (∃ m, m ∈ hullMonths ∧ hullTierColName m = c) ∨
       (∃ m, m ∈ meMonths ∧ meColName m = c) ∨
       c = fuelCol ∨ c = ciiCol ∨ c = "Comments") := by
  unfold desiredColumnsOrder
  simp [List.mem_append, List.mem_map]

/-- C8 (amended): column dropping is report-wide only, but it is not uniform
across metric kinds: an ME-efficiency tier column, the fuel-saving column
and the CII column appear in the final table exactly when their descriptor
obtained data at some point in the run (otherwise they are dropped), while a
hull-condition tier column is **never** dropped — when the hull metric
obtained no data it is kept and filled with all-`"N/A"` placeholder values
(lines 319-323). -/
theorem claim_C8_amended (hullMonths meMonths : List String)
    (hullHas meHas : String → Bool) (fuelHas ciiHas : Bool) :
    (∀ m ∈ hullMonths, hullTierColName m ∈
        finalColumns hullMonths meMonths hullHas meHas fuelHas ciiHas) ∧
    (∀ m ∈ meMonths, (meColName m ∈
        finalColumns hullMonths meMonths hullHas meHas fuelHas ciiHas) ↔
          meHas m = true) ∧
    ((fuelCol ∈ finalColumns hullMonths meMonths hullHas meHas fuelHas ciiHas) ↔
        fuelHas = true) ∧
    ((ciiCol ∈ finalColumns hullMonths meMonths hullHas meHas fuelHas ciiHas) ↔
        ciiHas = true) := by
  unfold finalColumns
  refine ⟨?_, ?_, ?_, ?_⟩
  · intro m hm
    rw [List.mem_filter, decide_eq_true_eq, mem_dfColumns_iff,
      mem_desiredColumnsOrder_iff]
    exact ⟨Or.inr (Or.inr (Or.inl ⟨m, hm, rfl⟩)),
           Or.inr (Or.inr (Or.inr (Or.inr (Or.inr (Or.inr (Or.inl ⟨m, hm, rfl⟩))))))⟩
  · intro m hm
    rw [List.mem_filter, decide_eq_true_eq, mem_dfColumns_iff,
      mem_desiredColumnsOrder_iff]
    constructor
    · rintro ⟨-, h1 | h2 | ⟨a, ⟨-, -⟩, ha⟩ | ⟨a, ⟨-, hma⟩, ha⟩ |
        ⟨-, hf⟩ | ⟨-, hc⟩ | ⟨a, -, ha⟩ | hcm⟩
      · exact absurd h1 (meColName_ne_lit m (by decide))
      · exact absurd h2 (meColName_ne_lit m (by decide))
      · exact absurd ha.symm (meColName_ne_hullRaw m a)
      · rwa [meColName_injEq ha] at hma
      · exact absurd hf (meColName_ne_lit m (by decide))
      · exact absurd hc (meColName_ne_lit m (by decide))
      · exact absurd ha.symm (meColName_ne_hullTier m a)
      · exact absurd hcm (meColName_ne_lit m (by decide))
    · intro hmh
      exact ⟨Or.inr (Or.inr (Or.inr (Or.inl ⟨m, hm, rfl⟩))),
             Or.inr (Or.inr (Or.inr (Or.inl ⟨m, ⟨hm, hmh⟩, rfl⟩)))⟩
  · rw [List.mem_filter, decide_eq_true_eq, mem_dfColumns_iff,
      mem_desiredColumnsOrder_iff]
    constructor
    · rintro ⟨-, h1 | h2 | ⟨a, -, ha⟩ | ⟨a, -, ha⟩ | ⟨hf, -⟩ | ⟨-, hc⟩ |
        ⟨a, -, ha⟩ | hcm⟩
      · exact absurd h1 (by decide)
      · exact absurd h2 (by decide)
      · exact absurd ha (hullRawColName_ne_lit a (by decide))
      · exact absurd ha (meColName_ne_lit a (by decide))
      · exact hf
      · exact absurd hc (by decide)
      · exact absurd ha (hullTierColName_ne_lit a (by decide))
      · exact absurd hcm (by decide)
    · intro hf
      exact ⟨Or.inr (Or.inr (Or.inr (Or.inr (Or.inl rfl)))),
             Or.inr (Or.inr (Or.inr (Or.inr (Or.inl ⟨hf, rfl⟩))))⟩
  · rw [List.mem_filter, decide_eq_true_eq, mem_dfColumns_iff,
      mem_desiredColumnsOrder_iff]
    constructor
    · rintro ⟨-, h1 | h2 | ⟨a, -, ha⟩ | ⟨a, -, ha⟩ | ⟨-, hf⟩ | ⟨hc, -⟩ |
        ⟨a, -, ha⟩ | hcm⟩
      · exact absurd h1 (by decide)
      · exact absurd h2 (by decide)
      · exact absurd ha (hullRawColName_ne_lit a (by decide))
      · exact absurd ha (meColName_ne_lit a (by decide))
      · exact absurd hf (by decide)
      · exact hc
      · exact absurd ha (hullTierColName_ne_lit a (by decide))
      · exact absurd hcm (by decide)
    · intro hc
      exact ⟨Or.inr (Or.inr (Or.inr (Or.inr (Or.inr (Or.inl rfl))))),
             Or.inr (Or.inr (Or.inr (Or.inr (Or.inr (Or.inl ⟨hc, rfl⟩)))))⟩

/-- Witness for C8 (amended): for a run with one report month where only the
ME descriptor obtained data, the ME tier column is present. -/
theorem claim_C8_amended_witness :
    meColName "Jul 25" ∈
      finalColumns ["Jul 25"] ["Jul 25"] (fun _ => false) (fun _ => true) false false :=
  (((claim_C8_amended ["Jul 25"] ["Jul 25"] (fun _ => false) (fun _ => true)
      false false).2.1) "Jul 25" (by decide)).mpr rfl

/-- C8 counterexample: in a run where every descriptor (hull included)
obtained no data at all, the hull condition tier column is *not* dropped
from the final table — it is present and (lines 322-323) every one of its
cells is the placeholder `"N/A"`, contradicting the claim that a metric with
no data across the run has its column dropped entirely. -/
theorem claim_C8_counterexample :
    finalColumns ["Jul 25"] ["Jul 25"] (fun _ => false) (fun _ => false) false false =
      ["S. No.", "Vessel Name", hullTierColName "Jul 25", "Comments"] ∧
    hullTierCellValue false none = "N/A" := by
  constructor
  · decide
  · rfl

end FleetReport
